import Mathlib

/-!
# Verification of the OpenTelemetry streaming exporter core

A shallow embedding of three Go source files:

* `experimental/streaming/exporter/reader/reader.go` — the scope
  reconstructor (`readerObserver.orderedObserve`, `readScope`,
  `cleanupSpan`);
* `experimental/streaming/sdk/trace.go` — the producer-side tracer
  (`Start`, `WithSpan`, `WithResources`, `WithComponent`, `WithService`);
* `sdk/trace/config.go` — global tracing configuration (`ApplyConfig`).

The `observer` package (the event sequencer: `observer.Record`,
`observer.NewScope`, the `observer.Event` struct) and the `tag` package
(persistent attribute maps) are not part of the sources; their behaviour
is modelled from the specification where noted.  Machine integers
(event identifiers, trace/span ids, times) are modelled as `Nat`/`Int`;
`sync.Map` tables become association lists with unique keys; a Go panic
becomes an `Option`-style `none` result.
-/

namespace OTel

/-- Model of `observer.EventID`: the strictly increasing event sequence number.
`0` is the sentinel "no event" value. -/
abbrev EventID := Nat

/-- A `core.Value`: the payload of a key-value attribute (only the
variants this code base exercises). -/
inductive AttrValue where
  | vBool (b : Bool)
  | vString (s : String)
  | vInt (i : Int)
  deriving DecidableEq, Repr, Inhabited

/-- A `core.KeyValue` attribute. -/
structure KeyValue where
  key : String := ""
  value : AttrValue := .vBool false
  deriving DecidableEq, Repr, Inhabited

/-- Modelled from the spec: the `tag` package's attribute map — "an
immutable, persistent key-value snapshot".  Represented as an
association list with unique keys in insertion order. -/
abbrev TagMap := List KeyValue

/-- Upsert a single key-value into a tag map: replace the value when the
key is present, otherwise append. -/
def TagMap.setKV (m : TagMap) (kv : KeyValue) : TagMap :=
  if m.any (fun e => e.key == kv.key) then
    m.map (fun e => if e.key == kv.key then kv else e)
  else
    m ++ [kv]

/-- Modelled from the spec: a `tag.Mutator` operation. -/
inductive MutatorOp where
  | insert
  | update
  | upsert
  | delete
  deriving DecidableEq, Repr, Inhabited

/-- Modelled from the spec: a `tag.Mutator` — one of the "mutator
functions" an attribute delta may apply. -/
structure Mutator where
  op : MutatorOp := .upsert
  kv : KeyValue := {}
  deriving DecidableEq, Repr, Inhabited

/-- Apply one mutator to a tag map. -/
def TagMap.applyMutator (m : TagMap) (mu : Mutator) : TagMap :=
  match mu.op with
  | .insert => if m.any (fun e => e.key == mu.kv.key) then m else m ++ [mu.kv]
  | .update =>
      if m.any (fun e => e.key == mu.kv.key) then
        m.map (fun e => if e.key == mu.kv.key then mu.kv else e)
      else m
  | .upsert => m.setKV mu.kv
  | .delete => m.filter (fun e => e.key != mu.kv.key)

/-- Modelled from the spec: a `tag.MapUpdate` — an attribute delta that
"may add/replace single or multiple key-values, or apply one or more
mutator functions".  `none` for `singleKV`/`singleMutator` models the
zero-valued (undefined-key) Go field. -/
structure MapUpdate where
  singleKV : Option KeyValue := none
  multiKV : List KeyValue := []
  singleMutator : Option Mutator := none
  multiMutator : List Mutator := []
  deriving DecidableEq, Repr, Inhabited

/-- Modelled from the spec: `tag.Map.Apply` — produce a new snapshot by
applying the delta's single key-value, then the multiple key-values,
then the single mutator, then the multiple mutators.  The receiver map
is never mutated. -/
def TagMap.apply (m : TagMap) (u : MapUpdate) : TagMap :=
  let m1 := match u.singleKV with
    | some kv => m.setKV kv
    | none => m
  let m2 := u.multiKV.foldl TagMap.setKV m1
  let m3 := match u.singleMutator with
    | some mu => m2.applyMutator mu
    | none => m2
  u.multiMutator.foldl TagMap.applyMutator m3

/-- Model of `core.SpanContext`: `(trace_id: 128-bit as two 64-bit halves,
span_id: 64-bit)`. -/
structure SpanContext where
  traceIDHigh : Nat := 0
  traceIDLow : Nat := 0
  spanID : Nat := 0
  deriving DecidableEq, Repr, Inhabited

/-- Model of `core.SpanContext.HasTraceID`: either half of the trace id is
nonzero. -/
def SpanContext.hasTraceID (sc : SpanContext) : Bool :=
  sc.traceIDHigh != 0 || sc.traceIDLow != 0

/-- Model of `observer.ScopeID`: an event identifier plus an optional span
context. -/
structure ScopeID where
  eventID : EventID := 0
  spanContext : SpanContext := {}
  deriving DecidableEq, Repr, Inhabited

/-- Model of `ScopeID.HasTraceID` delegates to the embedded span context. -/
def ScopeID.hasTraceID (s : ScopeID) : Bool :=
  s.spanContext.hasTraceID

/-- The ambient Go `context.Context` as this code uses it: the tag map
(`tag.FromContext`) and the current span's context
(`trace.CurrentSpan(ctx).SpanContext()`, zero-valued when no span is
current). -/
structure Context where
  tags : TagMap := []
  currentSpanCtx : SpanContext := {}
  deriving DecidableEq, Repr, Inhabited

/-- Model of `tag.FromContext` on a possibly-nil context. -/
def tagFromContext : Option Context → TagMap
  | some c => c.tags
  | none => []

/-- Model of `observer.EventType` (ordering from the generated stringer plus the
`SET_STATUS` case `reader.go` handles). -/
inductive ObsEventType where
  | INVALID
  | START_SPAN
  | FINISH_SPAN
  | ADD_EVENT
  | ADD_EVENTF
  | NEW_SCOPE
  | NEW_MEASURE
  | NEW_METRIC
  | MODIFY_ATTR
  | RECORD_STATS
  | SET_STATUS
  deriving DecidableEq, Repr, Inhabited

/-- Model of `stats.Measurement`: a measure handle (opaque, `none` models a nil
interface) and a value (modelled as `Int`; no claim computes with it). -/
structure ObsMeasurement where
  measure : Option Nat := none
  value : Int := 0
  deriving DecidableEq, Repr, Inhabited

/-- Model of `observer.Event`: the wire unit of the producer→consumer stream,
with exactly the fields `reader.go` and `trace.go` use. -/
structure ObsEvent where
  type : ObsEventType := .INVALID
  time : Int := 0
  sequence : EventID := 0
  scope : ScopeID := {}
  context : Option Context := none
  parent : ScopeID := {}
  string : String := ""
  attributeKV : Option KeyValue := none
  attributes : List KeyValue := []
  mutator : Option Mutator := none
  mutators : List Mutator := []
  stats : List ObsMeasurement := []
  stat : ObsMeasurement := {}
  status : Nat := 0
  deriving DecidableEq, Repr, Inhabited

/-- The data of a `readerSpan`: name, start time, start tags, span
context, status, plus the embedded `readerScope`'s parent pointer and
attribute snapshot.  (The embedded scope's `span` field points back to
the span itself.) -/
structure ReaderSpanData where
  name : String := ""
  start : Int := 0
  startTags : TagMap := []
  spanContext : SpanContext := {}
  status : Nat := 0
  parent : EventID := 0
  attributes : TagMap := []
  deriving DecidableEq, Repr, Inhabited

/-- A value of the reconstructor's scope table: either a plain
`readerScope` (owning span, parent pointer, attribute snapshot) or a
`readerSpan`. -/
inductive ScopeNode where
  | scope (span : Option ReaderSpanData) (parent : EventID) (attributes : TagMap)
  | span (d : ReaderSpanData)
  deriving DecidableEq, Repr, Inhabited

/-- The parent pointer `cleanupSpan` follows for either node kind. -/
def ScopeNode.parentOf : ScopeNode → EventID
  | .scope _ p _ => p
  | .span d => d.parent

/-- The attribute snapshot of either node kind. -/
def ScopeNode.attrsOf : ScopeNode → TagMap
  | .scope _ _ a => a
  | .span d => d.attributes

/-- The owning span of either node kind (a `readerSpan` owns itself). -/
def ScopeNode.spanOf : ScopeNode → Option ReaderSpanData
  | .scope sp _ _ => sp
  | .span d => some d

/-- A `sync.Map` keyed by `EventID`, as an association list. -/
abbrev Table (α : Type) := List (EventID × α)

/-- Model of `sync.Map.Load`. -/
def tload {α : Type} (t : Table α) (k : EventID) : Option α :=
  (t.find? (fun e => e.1 == k)).map (·.2)

/-- Model of `sync.Map.Store`: insert or overwrite, keeping keys unique. -/
def tstore {α : Type} (t : Table α) (k : EventID) (v : α) : Table α :=
  (k, v) :: t.filter (fun e => e.1 != k)

/-- Model of `sync.Map.Delete`. -/
def tdelete {α : Type} (t : Table α) (k : EventID) : Table α :=
  t.filter (fun e => e.1 != k)

theorem tload_tstore_self {α : Type} (t : Table α) (k : EventID) (v : α) :
    tload (tstore t k v) k = some v := by
  simp [tload, tstore, List.find?]

theorem find?_filter_of_imp {α : Type} (l : List α) (p q : α → Bool)
    (h : ∀ x, p x = true → q x = true) :
    (l.filter q).find? p = l.find? p := by
  induction l with
  | nil => rfl
  | cons a l ih =>
    by_cases hq : q a = true
    · by_cases hp : p a = true
      · rw [List.filter_cons_of_pos hq, List.find?_cons_of_pos _ hp,
          List.find?_cons_of_pos _ hp]
      · rw [List.filter_cons_of_pos hq, List.find?_cons_of_neg _ hp,
          List.find?_cons_of_neg _ hp, ih]
    · have hp : ¬ p a = true := by
        intro hpa
        exact hq (h a hpa)
      rw [List.filter_cons_of_neg hq, List.find?_cons_of_neg _ hp, ih]

theorem tload_tstore_other {α : Type} (t : Table α) (k k' : EventID) (v : α)
    (h : k' ≠ k) : tload (tstore t k v) k' = tload t k' := by
  have hk : ¬ ((k, v).1 == k') = true := by
    simp only [beq_iff_eq]
    exact fun he => h (by exact_mod_cast he.symm)
  simp only [tload, tstore]
  rw [@List.find?_cons_of_neg _ (fun e => e.1 == k') (k, v)
    (t.filter fun e => e.1 != k) hk, find?_filter_of_imp]
  intro x hx
  simp only [beq_iff_eq, decide_eq_true_eq] at hx
  simp only [bne_iff_ne, ne_eq, decide_eq_true_eq]
  subst hx
  exact fun hc => h hc

/-- A successful load means deleting the key shortens the table (for
the termination of `cleanupSpan`). -/
theorem tdelete_length_lt {α : Type} (t : Table α) (k : EventID) {v : α}
    (h : tload t k = some v) : (tdelete t k).length < t.length := by
  induction t with
  | nil => simp [tload, List.find?] at h
  | cons e rest ih =>
    by_cases he : e.1 = k
    · have h1 : (e.1 != k) = false := by simp [bne, he]
      simp only [tdelete, List.filter, h1]
      calc (List.filter (fun e => e.1 != k) rest).length
          ≤ rest.length := List.length_filter_le _ _
        _ < (e :: rest).length := by simp
    · have h1 : (e.1 != k) = true := by simp [bne, he]
      have h2 : (e.1 == k) = false := by simp [beq_iff_eq, he]
      simp only [tload, List.find?, h2] at h
      have := ih h
      simp only [tdelete, List.filter, h1, List.length_cons]
      simpa [tdelete] using Nat.succ_lt_succ this

/-- Model of `readerObserver.cleanupSpan`: walk the scope chain from `id`,
following parent pointers and deleting every visited node, until
reaching `0`.  `none` models the `panic("scope not found")` on a
missing chain node. -/
def cleanupSpan (t : Table ScopeNode) (id : EventID) : Option (Table ScopeNode) :=
  if id = 0 then some t
  else
    match h : tload t id with
    | none => none
    | some node => cleanupSpan (tdelete t id) node.parentOf
termination_by t.length
decreasing_by exact tdelete_length_lt t id h

/-- The list of event identifiers `cleanupSpan` visits (a specification
device mirroring its recursion: the scope chain from `id` to the
root). -/
def scopeChain (t : Table ScopeNode) (id : EventID) : Option (List EventID) :=
  if id = 0 then some []
  else
    match h : tload t id with
    | none => none
    | some node => (scopeChain (tdelete t id) node.parentOf).map (id :: ·)
termination_by t.length
decreasing_by exact tdelete_length_lt t id h

/-- Model of `reader.EventType` (the output-record event type constants of
`reader.go`). -/
inductive ReadEventType where
  | INVALID
  | START_SPAN
  | FINISH_SPAN
  | ADD_EVENT
  | MODIFY_ATTR
  | RECORD_STATS
  | SET_STATUS
  deriving DecidableEq, Repr, Inhabited

/-- An output `reader.Measurement`.  `readMeasureScope` is stubbed in
the source (`return nil, nil`), so `tags` is always the nil map,
modelled as `[]`. -/
structure Measurement where
  measure : Option Nat := none
  value : Int := 0
  tags : TagMap := []
  deriving DecidableEq, Repr, Inhabited

/-- The enriched output record `reader.Event`.  `parentAttributes`
models the nil-able `ParentAttributes tag.Map` field (`none` = nil, the
zero value; it is only assigned on the local-parent path). -/
structure ReadEvent where
  type : ReadEventType := .INVALID
  time : Int := 0
  sequence : EventID := 0
  spanContext : SpanContext := {}
  tags : TagMap := []
  attributes : TagMap := []
  stats : List Measurement := []
  parent : SpanContext := {}
  parentAttributes : Option TagMap := none
  duration : Int := 0
  name : String := ""
  message : String := ""
  status : Nat := 0
  deriving DecidableEq, Repr, Inhabited

/-- The `readerObserver` state: the scope table, the measure table, the
metric table (a `readerMetric` holds its measure's data — here its
name), and the number of registered readers. -/
structure ReaderState where
  scopes : Table ScopeNode := []
  measures : Table String := []
  metrics : Table String := []
  readers : Nat := 0
  deriving DecidableEq, Repr, Inhabited

/-- Model of `readerObserver.readScope`: reference `0` resolves to an empty
snapshot with no span; otherwise the scope table is consulted and a
missing entry is a panic (`none`). -/
def ReaderState.readScope (rs : ReaderState) (id : ScopeID) :
    Option (TagMap × Option ReaderSpanData) :=
  if id.eventID = 0 then some ([], none)
  else
    match tload rs.scopes id.eventID with
    | none => none
    | some (.scope sp _ attrs) => some (attrs, sp)
    | some (.span d) => some (d.attributes, some d)

/-- Synchronous delivery of one record to every registered reader, in
registration order (`for _, reader := range ro.readers`). -/
def deliverAll (n : Nat) (r : ReadEvent) : List (Nat × ReadEvent) :=
  (List.range n).map (fun i => (i, r))

/-- The `tag.MapUpdate` built in the `NEW_SCOPE`/`MODIFY_ATTR` case of
`orderedObserve`. -/
def eventUpdate (e : ObsEvent) : MapUpdate :=
  { singleKV := e.attributeKV
    multiKV := e.attributes
    singleMutator := e.mutator
    multiMutator := e.mutators }

/-- Model of `readerObserver.addMeasurement`: `readMeasureScope` is stubbed and
returns a nil map, so the appended measurement carries no tags. -/
def addMeasurement (r : ReadEvent) (m : ObsMeasurement) : ReadEvent :=
  { r with stats := r.stats ++ [{ measure := m.measure, value := m.value, tags := [] }] }

/-- Model of `readerObserver.orderedObserve`.  The result is the new observer
state (`none` models a panic aborting the process) paired with the list
of `(reader index, record)` deliveries the call performed before
stopping; a panic raised before the delivery loop therefore yields an
empty delivery list, while the `cleanupSpan` walk — which runs after
delivery — can fail with the records already delivered. -/
def orderedObserve (rs : ReaderState) (event : ObsEvent) :
    Option ReaderState × List (Nat × ReadEvent) :=
  let read : ReadEvent :=
    { time := event.time
      sequence := event.sequence
      attributes := []
      tags := tagFromContext event.context }
  match event.type with
  | .START_SPAN =>
      match rs.readScope event.scope with
      | none => (none, [])
      | some (rattrs, _) =>
          let span : ReaderSpanData :=
            { name := event.string
              start := event.time
              startTags := tagFromContext event.context
              spanContext := event.scope.spanContext
              parent := 0
              attributes := rattrs }
          let read := { read with
            name := span.name
            type := .START_SPAN
            spanContext := span.spanContext
            attributes := rattrs }
          if event.parent.eventID = 0 ∧ event.parent.hasTraceID then
            -- Remote parent; no parent attributes in the record.
            let read := { read with parent := event.parent.spanContext }
            (some { rs with scopes := tstore rs.scopes event.sequence (.span span) },
              deliverAll rs.readers read)
          else
            match rs.readScope event.parent with
            | none => (none, [])
            | some (pattrs, pspan) =>
                let read := match pspan with
                  | some ps =>
                      -- Local parent.
                      { read with
                        parent := ps.spanContext
                        parentAttributes := some pattrs }
                  | none => read
                (some { rs with scopes := tstore rs.scopes event.sequence (.span span) },
                  deliverAll rs.readers read)
  | .FINISH_SPAN =>
      match rs.readScope event.scope with
      | none => (none, [])
      | some (attrs, ospan) =>
          match ospan with
          | none => (none, [])
          | some span =>
              let read := { read with
                name := span.name
                type := .FINISH_SPAN
                attributes := attrs
                duration := event.time - span.start
                tags := span.startTags
                spanContext := span.spanContext }
              let ds := deliverAll rs.readers read
              match cleanupSpan rs.scopes event.scope.eventID with
              | none => (none, ds)
              | some scopes2 => (some { rs with scopes := scopes2 }, ds)
  | .NEW_SCOPE | .MODIFY_ATTR =>
      let sid := event.scope
      let resolved : Option (TagMap × Option ReaderSpanData) :=
        if sid.eventID = 0 then some ([], none)
        else
          match tload rs.scopes sid.eventID with
          | none => none
          | some (.scope sp _ attrs) => some (attrs, sp)
          | some (.span d) => some (d.attributes, some d)
      match resolved with
      | none => (none, [])
      | some (m, span) =>
          let sc : ScopeNode := .scope span sid.eventID (m.apply (eventUpdate event))
          let rs2 := { rs with scopes := tstore rs.scopes event.sequence sc }
          if event.type = .NEW_SCOPE then (some rs2, [])
          else
            let read := { read with
              type := .MODIFY_ATTR
              attributes := sc.attrsOf }
            let read := match span with
              | some s => { read with spanContext := s.spanContext, tags := s.startTags }
              | none => read
            (some rs2, deliverAll rs.readers read)
  | .NEW_MEASURE =>
      (some { rs with measures := tstore rs.measures event.sequence event.string }, [])
  | .NEW_METRIC =>
      match tload rs.measures event.scope.eventID with
      | none => (none, [])
      | some name =>
          (some { rs with metrics := tstore rs.metrics event.sequence name }, [])
  | .ADD_EVENT =>
      match rs.readScope event.scope with
      | none => (none, [])
      | some (attrs, span) =>
          let read := { read with
            type := .ADD_EVENT
            message := event.string
            attributes := attrs.apply { multiKV := event.attributes } }
          let read := match span with
            | some s => { read with spanContext := s.spanContext }
            | none => read
          (some rs, deliverAll rs.readers read)
  | .RECORD_STATS =>
      match rs.readScope event.scope with
      | none => (none, [])
      | some (_, span) =>
          let read := { read with type := .RECORD_STATS }
          let read := match span with
            | some s => { read with spanContext := s.spanContext }
            | none => read
          let read := event.stats.foldl addMeasurement read
          let read := if event.stat.measure.isSome then addMeasurement read event.stat
            else read
          (some rs, deliverAll rs.readers read)
  | .SET_STATUS =>
      match rs.readScope event.scope with
      | none => (none, [])
      | some (_, span) =>
          let read := { read with type := .SET_STATUS, status := event.status }
          -- The source also writes `span.status = event.Status` through the
          -- node pointer; that field is never read back anywhere in
          -- `reader.go`, so the write has no observable effect here.
          let read := match span with
            | some s => { read with spanContext := s.spanContext }
            | none => read
          (some rs, deliverAll rs.readers read)
  | _ =>
      -- `default: panic("Unhandled case")`
      (none, [])

/-- Feed a list of events to the observer in order, collecting all
deliveries, stopping at the first panic. -/
def observeMany (rs : ReaderState) :
    List ObsEvent → Option ReaderState × List (Nat × ReadEvent)
  | [] => (some rs, [])
  | e :: es =>
      match orderedObserve rs e with
      | (none, ds) => (none, ds)
      | (some rs2, ds) =>
          let r := observeMany rs2 es
          (r.1, ds ++ r.2)

/-- Modelled from the spec: the observer package's event-sequencer
state (not under `src/`; only its callers are).  The sequencer "assigns
each emitted event a unique, strictly increasing sequence number"; `0`
is the sentinel "no event" value, so numbering starts at 1.  The
emitted stream is kept for the consumer. -/
structure ObserverState where
  nextID : EventID := 1
  events : List ObsEvent := []
  deriving DecidableEq, Repr, Inhabited

/-- Modelled from the spec: `observer.Record` — assign the next
sequence number to the event, append it to the stream, and return the
assigned identifier. -/
def ObserverState.record (st : ObserverState) (e : ObsEvent) :
    ObserverState × EventID :=
  ({ nextID := st.nextID + 1
     events := st.events ++ [{ e with sequence := st.nextID }] },
    st.nextID)

/-- Modelled from the spec: `observer.NewScope` — emit a `NEW_SCOPE`
event referencing the given parent scope and return a scope identifier
naming the new event with the parent's span context. -/
def ObserverState.newScope (st : ObserverState) (parent : ScopeID)
    (attrs : List KeyValue) : ObserverState × ScopeID :=
  let (st2, id) := st.record { type := .NEW_SCOPE, scope := parent, attributes := attrs }
  (st2, { eventID := id, spanContext := parent.spanContext })

/-- The `sdk.tracer`: its only state is the event identifier of its
current resource scope. -/
structure Tracer where
  resources : EventID := 0
  deriving DecidableEq, Repr, Inhabited

/-- Model of `sdk.New()`: a zero-valued tracer. -/
def Tracer.new : Tracer := {}

/-- Model of `tracer.WithResources`: emit a `NEW_SCOPE` chained off the
tracer's current resource scope and return a derived tracer
remembering the new scope's event identifier. -/
def Tracer.withResources (t : Tracer) (st : ObserverState)
    (attrs : List KeyValue) : ObserverState × Tracer :=
  let (st2, s) := st.newScope { eventID := t.resources } attrs
  (st2, { resources := s.eventID })

/-- Model of `sdk.ComponentKey.String(name)` etc. -/
def componentKV (name : String) : KeyValue := { key := "component", value := .vString name }

def serviceKV (name : String) : KeyValue := { key := "service", value := .vString name }

def errorKV (b : Bool) : KeyValue := { key := "error", value := .vBool b }

def messageKV (text : String) : KeyValue := { key := "message", value := .vString text }

/-- Model of `tracer.WithComponent`: delegates to `WithResources` with a
component key-value. -/
def Tracer.withComponent (t : Tracer) (st : ObserverState) (name : String) :
    ObserverState × Tracer :=
  t.withResources st [componentKV name]

/-- Model of `tracer.WithService`: delegates to `WithResources` with a service
key-value. -/
def Tracer.withService (t : Tracer) (st : ObserverState) (name : String) :
    ObserverState × Tracer :=
  t.withResources st [serviceKV name]

/-- Model of `apitrace.SpanOptions` as `trace.go` reads it: an explicit parent
reference (its span context), a start time, and initial attributes. -/
structure SpanOptions where
  reference : SpanContext := {}
  startTime : Int := 0
  attributes : List KeyValue := []
  deriving DecidableEq, Repr, Inhabited

/-- The `sdk.span` handle: its owning tracer and its initial scope
(span context plus the `START_SPAN` event identifier). -/
structure Span where
  tracer : Tracer := {}
  initial : ScopeID := {}
  deriving DecidableEq, Repr, Inhabited

/-- Model of `tracer.Start`.  Randomness (`rand.Uint64`) is modelled as an
explicit stream `rnd`: draw 0 is the new span id; draws 1 and 2 are
the trace-id halves consumed only when no parent resolves.  Returns
the updated observer state, the context with the new span current, and
the span handle. -/
def Tracer.start (t : Tracer) (st : ObserverState) (rnd : Nat → Nat)
    (ctx : Context) (name : String) (o : SpanOptions) :
    ObserverState × Context × Span :=
  let spanID := rnd 0
  let parentSC : SpanContext :=
    if o.reference.hasTraceID then o.reference
    else ctx.currentSpanCtx
  let parentScope : ScopeID := { eventID := 0, spanContext := parentSC }
  let child : SpanContext :=
    if parentScope.hasTraceID then
      { traceIDHigh := parentSC.traceIDHigh
        traceIDLow := parentSC.traceIDLow
        spanID := spanID }
    else
      { traceIDHigh := rnd 1, traceIDLow := rnd 2, spanID := spanID }
  let childScope : ScopeID := { spanContext := child, eventID := t.resources }
  let (st2, scope) := st.newScope childScope o.attributes
  let (st3, eid) := st2.record
    { type := .START_SPAN
      time := o.startTime
      scope := scope
      context := some ctx
      parent := parentScope
      string := name }
  let sp : Span := { tracer := t, initial := { spanContext := child, eventID := eid } }
  (st3, { ctx with currentSpanCtx := child }, sp)

/-- Modelled from the spec: `span.SetAttribute` — "attribute set ...
emit[s] one corresponding event type carrying the span's own scope
reference" (the span type's methods are not under `src/`). -/
def Span.setAttribute (sp : Span) (st : ObserverState) (kv : KeyValue) :
    ObserverState :=
  (st.record { type := .MODIFY_ATTR, scope := sp.initial, attributeKV := some kv }).1

/-- Modelled from the spec: `span.Event` — a log event carrying the
span's own scope reference, a message, and extra attributes. -/
def Span.event (sp : Span) (st : ObserverState) (ctx : Context) (msg : String)
    (attrs : List KeyValue) : ObserverState :=
  (st.record
    { type := .ADD_EVENT
      scope := sp.initial
      context := some ctx
      string := msg
      attributes := attrs }).1

/-- Modelled from the spec: `span.Finish` — "emits FINISH_SPAN
referencing the span's own scope". -/
def Span.finish (sp : Span) (st : ObserverState) : ObserverState :=
  (st.record { type := .FINISH_SPAN, scope := sp.initial }).1

/-- Model of `tracer.WithSpan`: start a span, run the body with the new
context, and — via `defer span.Finish()` — finish the span on every
exit path; when the body returns an error, record an error attribute
and a log event first and return the error unchanged.  The body is a
pure function returning `none` (success) or `some message` (error). -/
def Tracer.withSpan (t : Tracer) (st : ObserverState) (rnd : Nat → Nat)
    (ctx : Context) (name : String) (body : Context → Option String) :
    ObserverState × Option String :=
  match t.start st rnd ctx name {} with
  | (st1, ctx2, sp) =>
      match body ctx2 with
      | some errMsg =>
          let st2 := sp.setAttribute st1 (errorKV true)
          let st3 := sp.event st2 ctx2 "span error" [messageKV errMsg]
          (sp.finish st3, some errMsg)
      | none => (sp.finish st1, none)

/-- Model of `trace.Sampler` (an interface value; `none` models nil). -/
structure Sampler where
  id : Nat := 0
  deriving DecidableEq, Repr, Inhabited

/-- Model of `internal.IDGenerator` (an interface value; `none` models nil). -/
structure IDGenerator where
  id : Nat := 0
  deriving DecidableEq, Repr, Inhabited

/-- Model of `trace.Config`: the global tracing configuration. -/
structure Config where
  defaultSampler : Option Sampler := none
  idGenerator : Option IDGenerator := none
  maxEventsPerSpan : Int := 0
  maxAttributesPerSpan : Int := 0
  maxLinksPerSpan : Int := 0
  deriving DecidableEq, Repr, Inhabited

/-- Model of `trace.ApplyConfig`: copy the currently published config, override
only the fields the argument provides (non-nil interface values,
strictly positive limits), and publish the copy as the single new
value. -/
def ApplyConfig (current cfg : Config) : Config :=
  let c := current
  let c := if cfg.defaultSampler.isSome then { c with defaultSampler := cfg.defaultSampler } else c
  let c := if cfg.idGenerator.isSome then { c with idGenerator := cfg.idGenerator } else c
  let c := if cfg.maxEventsPerSpan > 0 then { c with maxEventsPerSpan := cfg.maxEventsPerSpan } else c
  let c := if cfg.maxAttributesPerSpan > 0 then { c with maxAttributesPerSpan := cfg.maxAttributesPerSpan } else c
  let c := if cfg.maxLinksPerSpan > 0 then { c with maxLinksPerSpan := cfg.maxLinksPerSpan } else c
  c

/-! ## Claims -/

/-- C8: `ApplyConfig` merges its argument into the current
configuration field by field: a `nil` sampler or id generator and a
non-positive limit produce no override, while each provided field
replaces exactly that field; the result is one new config value. -/
theorem applyConfig_merges_per_field (c cfg : Config) :
    (ApplyConfig c cfg).defaultSampler
        = (if cfg.defaultSampler.isSome then cfg.defaultSampler else c.defaultSampler)
    ∧ (ApplyConfig c cfg).idGenerator
        = (if cfg.idGenerator.isSome then cfg.idGenerator else c.idGenerator)
    ∧ (ApplyConfig c cfg).maxEventsPerSpan
        = (if cfg.maxEventsPerSpan > 0 then cfg.maxEventsPerSpan else c.maxEventsPerSpan)
    ∧ (ApplyConfig c cfg).maxAttributesPerSpan
        = (if cfg.maxAttributesPerSpan > 0 then cfg.maxAttributesPerSpan else c.maxAttributesPerSpan)
    ∧ (ApplyConfig c cfg).maxLinksPerSpan
        = (if cfg.maxLinksPerSpan > 0 then cfg.maxLinksPerSpan else c.maxLinksPerSpan) := by
  unfold ApplyConfig
  split_ifs <;> simp_all

/-- C4: Every span node stored by the `START_SPAN` case carries
parent event identifier `0` (its embedded scope record is freshly
zero-initialized), regardless of the resource-scope reference used to
compute its attributes. -/
theorem startSpan_node_is_root (rs : ReaderState) (e : ObsEvent)
    (rs' : ReaderState) (ds : List (Nat × ReadEvent))
    (ht : e.type = .START_SPAN)
    (hob : orderedObserve rs e = (some rs', ds)) :
    ∃ d, tload rs'.scopes e.sequence = some (.span d) ∧ d.parent = 0 := by
  simp only [orderedObserve, ht] at hob
  cases hscope : rs.readScope e.scope with
  | none => simp [hscope] at hob
  | some v =>
    obtain ⟨rattrs, osp⟩ := v
    simp only [hscope] at hob
    by_cases hp : e.parent.eventID = 0 ∧ e.parent.hasTraceID = true
    · simp only [if_pos hp, Prod.mk.injEq, Option.some.injEq] at hob
      obtain ⟨hrs, -⟩ := hob
      subst hrs
      exact ⟨_, tload_tstore_self _ _ _, rfl⟩
    · simp only [if_neg hp] at hob
      cases hpar : rs.readScope e.parent with
      | none => simp [hpar] at hob
      | some pv =>
        obtain ⟨pattrs, pspan⟩ := pv
        simp only [hpar, Prod.mk.injEq, Option.some.injEq] at hob
        obtain ⟨hrs, -⟩ := hob
        subst hrs
        exact ⟨_, tload_tstore_self _ _ _, rfl⟩

/-- Witness for `startSpan_node_is_root` at a concrete event. -/
theorem startSpan_node_is_root_witness :
    ∃ d, tload (ReaderState.scopes
        { scopes := [(4, .span { name := "w" })], readers := 1 }) 4
      = some (.span d) ∧ d.parent = 0 :=
  startSpan_node_is_root { readers := 1 }
    { type := .START_SPAN, sequence := 4, string := "w" }
    { scopes := [(4, .span { name := "w" })], readers := 1 }
    [(0, { type := .START_SPAN, sequence := 4, name := "w" })]
    rfl (by rfl)

/-- C1: A `MODIFY_ATTR` (or `NEW_SCOPE`) event whose scope
reference resolves to an existing node stores, under the event's own
sequence identifier, a new scope node whose snapshot is the parent's
snapshot with the event's full attribute delta (single key-value,
multiple key-values, single mutator, multiple mutators) applied, while
the parent node's entry — and with it the parent's snapshot — is left
unchanged. -/
theorem modifyAttr_copy_on_write (rs : ReaderState) (e : ObsEvent)
    (pnode : ScopeNode)
    (ht : e.type = .MODIFY_ATTR ∨ e.type = .NEW_SCOPE)
    (hnz : e.scope.eventID ≠ 0)
    (hp : tload rs.scopes e.scope.eventID = some pnode)
    (hfresh : e.sequence ≠ e.scope.eventID) :
    ∃ rs' ds, orderedObserve rs e = (some rs', ds)
      ∧ tload rs'.scopes e.sequence
          = some (.scope pnode.spanOf e.scope.eventID
              (pnode.attrsOf.apply (eventUpdate e)))
      ∧ tload rs'.scopes e.scope.eventID = some pnode := by
  have store1 := tload_tstore_self rs.scopes e.sequence
    (ScopeNode.scope pnode.spanOf e.scope.eventID
      (pnode.attrsOf.apply (eventUpdate e)))
  have store2 := tload_tstore_other rs.scopes e.sequence e.scope.eventID
    (ScopeNode.scope pnode.spanOf e.scope.eventID
      (pnode.attrsOf.apply (eventUpdate e)))
    (Ne.symm hfresh)
  rcases ht with ht | ht <;>
  · simp only [orderedObserve, ht, if_neg hnz, hp]
    cases pnode with
    | scope sp p a =>
        refine ⟨_, _, rfl, ?_, ?_⟩
        · simpa [ScopeNode.spanOf, ScopeNode.attrsOf] using store1
        · simpa [ScopeNode.spanOf, ScopeNode.attrsOf] using store2.trans hp
    | span d =>
        refine ⟨_, _, rfl, ?_, ?_⟩
        · simpa [ScopeNode.spanOf, ScopeNode.attrsOf] using store1
        · simpa [ScopeNode.spanOf, ScopeNode.attrsOf] using store2.trans hp

/-- Witness for `modifyAttr_copy_on_write` at a concrete event. -/
theorem modifyAttr_copy_on_write_witness :
    ∃ rs' ds,
      orderedObserve
          { scopes := [(5, .scope none 0 [{ key := "a", value := .vInt 1 }])], readers := 1 }
          { type := .MODIFY_ATTR, sequence := 7, scope := { eventID := 5 },
            attributeKV := some { key := "b", value := .vInt 2 } }
        = (some rs', ds)
      ∧ tload rs'.scopes 7
          = some (.scope (ScopeNode.spanOf (.scope none 0 [{ key := "a", value := .vInt 1 }])) 5
              (TagMap.apply
                (ScopeNode.attrsOf (.scope none 0 [{ key := "a", value := .vInt 1 }]))
                (eventUpdate
                  { type := .MODIFY_ATTR, sequence := 7, scope := { eventID := 5 },
                    attributeKV := some { key := "b", value := .vInt 2 } })))
      ∧ tload rs'.scopes 5 = some (.scope none 0 [{ key := "a", value := .vInt 1 }]) :=
  modifyAttr_copy_on_write
    { scopes := [(5, .scope none 0 [{ key := "a", value := .vInt 1 }])], readers := 1 }
    { type := .MODIFY_ATTR, sequence := 7, scope := { eventID := 5 },
      attributeKV := some { key := "b", value := .vInt 2 } }
    (.scope none 0 [{ key := "a", value := .vInt 1 }])
    (Or.inl rfl) (by decide) (by rfl) (by decide)

/-- C6: An event whose nonzero scope reference (for `NEW_METRIC`:
measure reference) names an identifier absent from the corresponding
table makes the reconstructor panic at the lookup, with no record
delivered to any reader; a reference value of `0` given to `readScope`
instead resolves to the empty snapshot with no owning span.
(`NEW_MEASURE` is excluded: it performs no lookup at all.) -/
theorem absent_reference_panics (rs : ReaderState) (e : ObsEvent) (id : ScopeID)
    (hnm : e.type ≠ .NEW_MEASURE)
    (hnz : e.scope.eventID ≠ 0)
    (hmetric : e.type = .NEW_METRIC → tload rs.measures e.scope.eventID = none)
    (hscope : e.type ≠ .NEW_METRIC → tload rs.scopes e.scope.eventID = none) :
    orderedObserve rs e = (none, [])
      ∧ (id.eventID = 0 → rs.readScope id = some ([], none)) := by
  constructor
  · cases hty : e.type
    case NEW_MEASURE => exact absurd hty hnm
    case NEW_METRIC =>
      simp only [orderedObserve, hty, hmetric hty]
    case INVALID => simp only [orderedObserve, hty]
    case ADD_EVENTF => simp only [orderedObserve, hty]
    case NEW_SCOPE =>
      have h := hscope (by simp [hty])
      simp only [orderedObserve, hty, if_neg hnz, h]
    case MODIFY_ATTR =>
      have h := hscope (by simp [hty])
      simp only [orderedObserve, hty, if_neg hnz, h]
    all_goals {
      have h := hscope (by simp [hty])
      simp only [orderedObserve, hty, ReaderState.readScope, if_neg hnz, h]
    }
  · intro h0
    simp [ReaderState.readScope, h0]

/-- Witness for `absent_reference_panics` at a concrete event. -/
theorem absent_reference_panics_witness :
    orderedObserve { readers := 2 } { type := .FINISH_SPAN, scope := { eventID := 9 } }
        = (none, [])
      ∧ ((⟨0, {}⟩ : ScopeID).eventID = 0 →
          ReaderState.readScope { readers := 2 } ⟨0, {}⟩ = some ([], none)) :=
  absent_reference_panics { readers := 2 }
    { type := .FINISH_SPAN, scope := { eventID := 9 } } ⟨0, {}⟩
    (by decide) (by decide) (by intro h; cases h) (fun _ => rfl)

/-- C10: `NEW_SCOPE`, `NEW_MEASURE` and `NEW_METRIC` events are
silent (no record delivered); any other event type that completes
delivers exactly one record to every registered reader in registration
order; for `FINISH_SPAN` that resolves to a span the delivery happens
even when the subsequent cleanup walk panics, i.e. before cleanup. -/
theorem silent_and_delivered_events (rs : ReaderState) (e : ObsEvent) :
    ((e.type = .NEW_SCOPE ∨ e.type = .NEW_MEASURE ∨ e.type = .NEW_METRIC) →
        (orderedObserve rs e).2 = [])
    ∧ ((e.type ≠ .NEW_SCOPE ∧ e.type ≠ .NEW_MEASURE ∧ e.type ≠ .NEW_METRIC) →
        ∀ rs', (orderedObserve rs e).1 = some rs' →
          ∃ r, (orderedObserve rs e).2
            = (List.range rs.readers).map (fun i => (i, r)))
    ∧ (e.type = .FINISH_SPAN →
        ∀ v d, rs.readScope e.scope = some (v, some d) →
          ∃ r, (orderedObserve rs e).2
            = (List.range rs.readers).map (fun i => (i, r))) := by
  refine ⟨?_, ?_, ?_⟩
  · rintro (hty | hty | hty)
    · simp only [orderedObserve, hty]
      by_cases h0 : e.scope.eventID = 0
      · simp [h0]
      · rcases ht2 : tload rs.scopes e.scope.eventID with - | node
        · simp [if_neg h0, ht2]
        · cases node <;> simp [if_neg h0, ht2]
    · simp only [orderedObserve, hty]
    · simp only [orderedObserve, hty]
      rcases ht2 : tload rs.measures e.scope.eventID with - | name <;> simp [ht2]
  · rintro ⟨h1, h2, h3⟩ rs' hob
    cases hty : e.type
    case NEW_SCOPE => exact absurd hty h1
    case NEW_MEASURE => exact absurd hty h2
    case NEW_METRIC => exact absurd hty h3
    case INVALID => simp only [orderedObserve, hty] at hob; cases hob
    case ADD_EVENTF => simp only [orderedObserve, hty] at hob; cases hob
    case START_SPAN =>
      simp only [orderedObserve, hty] at hob ⊢
      rcases hs : rs.readScope e.scope with - | ⟨rattrs, osp⟩
      · simp [hs] at hob
      · simp only [hs] at hob ⊢
        by_cases hpc : e.parent.eventID = 0 ∧ e.parent.hasTraceID = true
        · simp only [if_pos hpc]
          exact ⟨_, rfl⟩
        · simp only [if_neg hpc] at hob ⊢
          rcases hp : rs.readScope e.parent with - | ⟨pattrs, pspan⟩
          · simp [hp] at hob
          · simp only [hp]
            exact ⟨_, rfl⟩
    case FINISH_SPAN =>
      simp only [orderedObserve, hty] at hob ⊢
      rcases hs : rs.readScope e.scope with - | ⟨attrs, ospan⟩
      · simp [hs] at hob
      · rcases ospan with - | span
        · simp [hs] at hob
        · simp only [hs]
          rcases hc : cleanupSpan rs.scopes e.scope.eventID with - | sc2 <;>
            simp only [hc] <;> exact ⟨_, rfl⟩
    case MODIFY_ATTR =>
      simp only [orderedObserve, hty] at hob ⊢
      by_cases h0 : e.scope.eventID = 0
      · simp only [h0, if_pos rfl] at hob ⊢
        simp only [reduceCtorEq, if_neg]
        exact ⟨_, rfl⟩
      · rcases ht2 : tload rs.scopes e.scope.eventID with - | node
        · simp [if_neg h0, ht2] at hob
        · cases node <;>
          · simp only [if_neg h0, ht2] at hob ⊢
            simp only [reduceCtorEq, if_neg]
            exact ⟨_, rfl⟩
    case ADD_EVENT =>
      simp only [orderedObserve, hty] at hob ⊢
      rcases hs : rs.readScope e.scope with - | ⟨attrs, span⟩
      · simp [hs] at hob
      · simp only [hs]
        exact ⟨_, rfl⟩
    case RECORD_STATS =>
      simp only [orderedObserve, hty] at hob ⊢
      rcases hs : rs.readScope e.scope with - | ⟨attrs, span⟩
      · simp [hs] at hob
      · simp only [hs]
        exact ⟨_, rfl⟩
    case SET_STATUS =>
      simp only [orderedObserve, hty] at hob ⊢
      rcases hs : rs.readScope e.scope with - | ⟨attrs, span⟩
      · simp [hs] at hob
      · simp only [hs]
        exact ⟨_, rfl⟩
  · intro hty v d hsp
    simp only [orderedObserve, hty, hsp]
    rcases hc : cleanupSpan rs.scopes e.scope.eventID with - | sc2 <;>
      simp only [hc] <;> exact ⟨_, rfl⟩

/-- Witness for `silent_and_delivered_events` at a concrete state and
event. -/
theorem silent_and_delivered_events_witness :
    ((ObsEventType.NEW_MEASURE = .NEW_SCOPE ∨ ObsEventType.NEW_MEASURE = .NEW_MEASURE
        ∨ ObsEventType.NEW_MEASURE = .NEW_METRIC) →
      (orderedObserve { readers := 3 } { type := .NEW_MEASURE, sequence := 2 }).2 = [])
    ∧ ((ObsEventType.NEW_MEASURE ≠ .NEW_SCOPE ∧ ObsEventType.NEW_MEASURE ≠ .NEW_MEASURE
        ∧ ObsEventType.NEW_MEASURE ≠ .NEW_METRIC) →
        ∀ rs', (orderedObserve { readers := 3 } { type := .NEW_MEASURE, sequence := 2 }).1 = some rs' →
          ∃ r, (orderedObserve { readers := 3 } { type := .NEW_MEASURE, sequence := 2 }).2
            = (List.range (ReaderState.readers { readers := 3 })).map (fun i => (i, r)))
    ∧ (ObsEventType.NEW_MEASURE = .FINISH_SPAN →
        ∀ v d, ReaderState.readScope { readers := 3 } (ObsEvent.scope { type := .NEW_MEASURE, sequence := 2 }) = some (v, some d) →
          ∃ r, (orderedObserve { readers := 3 } { type := .NEW_MEASURE, sequence := 2 }).2
            = (List.range (ReaderState.readers { readers := 3 })).map (fun i => (i, r))) :=
  silent_and_delivered_events { readers := 3 } { type := .NEW_MEASURE, sequence := 2 }

theorem cleanupSpan_eq (t : Table ScopeNode) (id : EventID) :
    cleanupSpan t id
      = if id = 0 then some t
        else match tload t id with
          | none => none
          | some node => cleanupSpan (tdelete t id) node.parentOf := by
  rw [cleanupSpan]
  by_cases h0 : id = 0
  · rw [if_pos h0, if_pos h0]
  · rw [if_neg h0, if_neg h0]
    rcases htl : tload t id with - | node <;> split <;> simp_all

theorem scopeChain_eq (t : Table ScopeNode) (id : EventID) :
    scopeChain t id
      = if id = 0 then some []
        else match tload t id with
          | none => none
          | some node => (scopeChain (tdelete t id) node.parentOf).map (id :: ·) := by
  rw [scopeChain]
  by_cases h0 : id = 0
  · rw [if_pos h0, if_pos h0]
  · rw [if_neg h0, if_neg h0]
    rcases htl : tload t id with - | node <;> split <;> simp_all

theorem cleanupSpan_zero (t : Table ScopeNode) : cleanupSpan t 0 = some t := by
  rw [cleanupSpan_eq]
  simp

theorem cleanupSpan_step (t : Table ScopeNode) (id : EventID) (node : ScopeNode)
    (h0 : id ≠ 0) (htl : tload t id = some node) :
    cleanupSpan t id = cleanupSpan (tdelete t id) node.parentOf := by
  rw [cleanupSpan_eq, if_neg h0, htl]

theorem scopeChain_zero (t : Table ScopeNode) : scopeChain t 0 = some [] := by
  rw [scopeChain_eq]
  simp

theorem scopeChain_step (t : Table ScopeNode) (id : EventID) (node : ScopeNode)
    (h0 : id ≠ 0) (htl : tload t id = some node) :
    scopeChain t id = (scopeChain (tdelete t id) node.parentOf).map (id :: ·) := by
  rw [scopeChain_eq, if_neg h0, htl]

/-- A fuel-indexed computable twin of `cleanupSpan`, for evaluating
concrete instances (the well-founded recursion does not reduce). -/
def cleanupSpanFuel : Nat → Table ScopeNode → EventID → Option (Table ScopeNode)
  | _, t, 0 => some t
  | 0, _, _ => none
  | fuel + 1, t, id =>
      match tload t id with
      | none => none
      | some node => cleanupSpanFuel fuel (tdelete t id) node.parentOf

/-- A fuel-indexed computable twin of `scopeChain`. -/
def scopeChainFuel : Nat → Table ScopeNode → EventID → Option (List EventID)
  | _, _, 0 => some []
  | 0, _, _ => none
  | fuel + 1, t, id =>
      match tload t id with
      | none => none
      | some node => (scopeChainFuel fuel (tdelete t id) node.parentOf).map (id :: ·)

theorem cleanupSpan_fuel_eval (fuel : Nat) :
    ∀ (t : Table ScopeNode) (id : EventID), t.length < fuel →
      cleanupSpan t id = cleanupSpanFuel fuel t id := by
  induction fuel with
  | zero => intro t id h; omega
  | succ fuel ih =>
    intro t id h
    by_cases h0 : id = 0
    · subst h0
      rw [cleanupSpan_zero]
      rfl
    · obtain ⟨n, rfl⟩ := Nat.exists_eq_succ_of_ne_zero h0
      rw [cleanupSpan_eq, if_neg h0]
      rcases htl : tload t (n + 1) with - | node
      · simp [cleanupSpanFuel, htl]
      · have hlt := tdelete_length_lt t (n + 1) htl
        simp only [cleanupSpanFuel, htl]
        exact ih _ _ (Nat.lt_of_lt_of_le hlt (Nat.lt_succ_iff.mp h))

theorem scopeChain_fuel_eval (fuel : Nat) :
    ∀ (t : Table ScopeNode) (id : EventID), t.length < fuel →
      scopeChain t id = scopeChainFuel fuel t id := by
  induction fuel with
  | zero => intro t id h; omega
  | succ fuel ih =>
    intro t id h
    by_cases h0 : id = 0
    · subst h0
      rw [scopeChain_zero]
      rfl
    · obtain ⟨n, rfl⟩ := Nat.exists_eq_succ_of_ne_zero h0
      rw [scopeChain_eq, if_neg h0]
      rcases htl : tload t (n + 1) with - | node
      · simp [scopeChainFuel, htl]
      · have hlt := tdelete_length_lt t (n + 1) htl
        simp only [scopeChainFuel, htl]
        rw [ih _ _ (Nat.lt_of_lt_of_le hlt (Nat.lt_succ_iff.mp h))]

theorem filter_chain_cons (t : Table ScopeNode) (id : EventID) (L : List EventID) :
    t.filter (fun en => !((id :: L).contains en.1))
      = (tdelete t id).filter (fun en => !(L.contains en.1)) := by
  unfold tdelete
  rw [List.filter_filter]
  apply List.filter_congr
  intro en _
  simp only [List.contains_cons, Bool.not_or, bne]
  rw [Bool.and_comm]

theorem tdelete_length_nodup {α : Type} (t : Table α) (id : EventID) {v : α}
    (hnd : (t.map Prod.fst).Nodup) (h : tload t id = some v) :
    (tdelete t id).length + 1 = t.length := by
  induction t with
  | nil => simp [tload, List.find?] at h
  | cons e rest ih =>
    simp only [List.map_cons, List.nodup_cons] at hnd
    obtain ⟨hni, hnd'⟩ := hnd
    by_cases he : e.1 = id
    · have h1 : (e.1 != id) = false := by simp [bne, he]
      have hrest : rest.filter (fun en => en.1 != id) = rest := by
        apply List.filter_eq_self.mpr
        intro a ha
        simp only [bne_iff_ne, ne_eq, decide_eq_true_eq]
        intro hc
        have hmem : a.1 ∈ List.map Prod.fst rest := List.mem_map_of_mem Prod.fst ha
        rw [hc, ← he] at hmem
        exact hni hmem
      simp [tdelete, List.filter, h1, hrest]
    · have h1 : (e.1 != id) = true := by simp [bne, he]
      have h2 : (e.1 == id) = false := by simp [beq_iff_eq, he]
      simp only [tload, List.find?, h2] at h
      have h3 := ih hnd' h
      simp only [tdelete] at h3
      simp only [tdelete, List.filter, h1, List.length_cons]
      omega

theorem cleanup_eq_filter (L : List EventID) :
    ∀ (t : Table ScopeNode) (id : EventID),
      scopeChain t id = some L →
      cleanupSpan t id = some (t.filter (fun en => !(L.contains en.1))) := by
  induction L with
  | nil =>
    intro t id hL
    by_cases h0 : id = 0
    · rw [cleanupSpan_eq, if_pos h0]
      congr 1
      rw [List.filter_eq_self.mpr]
      intro a _
      simp
    · rw [scopeChain_eq, if_neg h0] at hL
      rcases htl : tload t id with - | node <;> simp only [htl] at hL
      · cases hL
      · rw [Option.map_eq_some'] at hL
        obtain ⟨L2, -, hc⟩ := hL
        exact absurd hc (List.cons_ne_nil _ _)
  | cons a L ih =>
    intro t id hL
    by_cases h0 : id = 0
    · rw [scopeChain_eq, if_pos h0] at hL
      cases hL
    · rw [scopeChain_eq, if_neg h0] at hL
      rcases htl : tload t id with - | node <;> simp only [htl] at hL
      · cases hL
      · rw [Option.map_eq_some'] at hL
        obtain ⟨L2, hL2, hc⟩ := hL
        injection hc with ha hL'
        subst ha
        subst hL'
        rw [cleanupSpan_eq, if_neg h0, htl]
        show cleanupSpan (tdelete t id) node.parentOf = _
        rw [ih _ _ hL2, filter_chain_cons]

theorem chain_length_nodup (L : List EventID) :
    ∀ (t : Table ScopeNode) (id : EventID),
      scopeChain t id = some L →
      (t.map Prod.fst).Nodup →
      (t.filter (fun en => !(L.contains en.1))).length + L.length = t.length := by
  induction L with
  | nil =>
    intro t id hL hnd
    rw [List.filter_eq_self.mpr]
    · simp
    · intro a _
      simp
  | cons a L ih =>
    intro t id hL hnd
    by_cases h0 : id = 0
    · rw [scopeChain_eq, if_pos h0] at hL
      cases hL
    · rw [scopeChain_eq, if_neg h0] at hL
      rcases htl : tload t id with - | node <;> simp only [htl] at hL
      · cases hL
      · rw [Option.map_eq_some'] at hL
        obtain ⟨L2, hL2, hc⟩ := hL
        injection hc with ha hL'
        subst ha
        subst hL'
        have hnd' : ((tdelete t id).map Prod.fst).Nodup :=
          ((List.filter_sublist t).map Prod.fst).nodup hnd
        have hlen := tdelete_length_nodup t id hnd htl
        have h4 := ih _ _ hL2 hnd'
        rw [filter_chain_cons]
        simp only [List.length_cons]
        omega

theorem tload_filter_chain {α : Type} (t : Table α) (L : List EventID) (k : EventID)
    (hk : ¬ L.contains k = true) :
    tload (t.filter (fun en => !(L.contains en.1))) k = tload t k := by
  unfold tload
  rw [find?_filter_of_imp]
  intro x hx
  simp only [beq_iff_eq, decide_eq_true_eq] at hx
  rw [hx]
  simp only [Bool.not_eq_true']
  exact Bool.of_not_eq_true hk

/-- C2: Processing `FINISH_SPAN` deletes exactly the nodes on the
chain walked from the finish event's scope identifier through parent
pointers to `0`: the table becomes its restriction to keys outside the
chain, its size drops by the chain's length (span node plus the N
private `MODIFY_ATTR` nodes, i.e. N+1), and every entry outside the
chain is left untouched. -/
theorem finishSpan_cleanup_exact (rs : ReaderState) (e : ObsEvent)
    (L : List EventID) (attrs : TagMap) (d : ReaderSpanData)
    (ht : e.type = .FINISH_SPAN)
    (hspan : rs.readScope e.scope = some (attrs, some d))
    (hL : scopeChain rs.scopes e.scope.eventID = some L)
    (hnd : (rs.scopes.map Prod.fst).Nodup) :
    ∃ rs' r, orderedObserve rs e = (some rs', deliverAll rs.readers r)
      ∧ rs'.scopes = rs.scopes.filter (fun en => !(L.contains en.1))
      ∧ rs'.scopes.length + L.length = rs.scopes.length
      ∧ ∀ k, ¬ L.contains k = true → tload rs'.scopes k = tload rs.scopes k := by
  simp only [orderedObserve, ht, hspan, cleanup_eq_filter L rs.scopes e.scope.eventID hL]
  refine ⟨_, _, rfl, rfl, ?_, ?_⟩
  · exact chain_length_nodup L rs.scopes e.scope.eventID hL hnd
  · intro k hk
    exact tload_filter_chain rs.scopes L k hk

/-- Witness for `finishSpan_cleanup_exact`: a span with two private
`MODIFY_ATTR` nodes (N = 2) and one unrelated scope entry.  The finish
event references the last private node; the chain has length 3. -/
theorem finishSpan_cleanup_exact_witness :
    ∃ rs' r,
      orderedObserve
          { scopes := [(9, .scope (some { name := "S" }) 8 []),
                       (8, .scope (some { name := "S" }) 5 []),
                       (5, .span { name := "S" }),
                       (3, .scope none 0 [])],
            readers := 1 }
          { type := .FINISH_SPAN, time := 50, scope := { eventID := 9 } }
        = (some rs', deliverAll 1 r)
      ∧ rs'.scopes
          = List.filter (fun en => !([9, 8, 5].contains en.1))
              [(9, .scope (some { name := "S" }) 8 []),
               (8, .scope (some { name := "S" }) 5 []),
               (5, .span { name := "S" }),
               (3, .scope none 0 [])]
      ∧ rs'.scopes.length + 3 = 4
      ∧ ∀ k, ¬ [9, 8, 5].contains k = true →
          tload rs'.scopes k
            = tload [(9, .scope (some { name := "S" }) 8 []),
                     (8, .scope (some { name := "S" }) 5 []),
                     (5, ScopeNode.span { name := "S" }),
                     (3, .scope none 0 [])] k := by
  have h := finishSpan_cleanup_exact
    { scopes := [(9, .scope (some { name := "S" }) 8 []),
                 (8, .scope (some { name := "S" }) 5 []),
                 (5, .span { name := "S" }),
                 (3, .scope none 0 [])],
      readers := 1 }
    { type := .FINISH_SPAN, time := 50, scope := { eventID := 9 } }
    [9, 8, 5] [] { name := "S" }
    rfl (by rfl)
    (by
      rw [scopeChain_fuel_eval 5 _ 9 (by decide)]
      decide)
    (by decide)
  exact h

theorem finish_on_fresh_span (rs : ReaderState) (ef : ObsEvent)
    (spanD : ReaderSpanData) (k : EventID)
    (htf : ef.type = .FINISH_SPAN) (href : ef.scope.eventID = k) (hnz : k ≠ 0)
    (hload : tload rs.scopes k = some (.span spanD)) (hpz : spanD.parent = 0) :
    orderedObserve rs ef
      = (some { rs with scopes := tdelete rs.scopes k },
        deliverAll rs.readers
          { type := .FINISH_SPAN
            time := ef.time
            sequence := ef.sequence
            spanContext := spanD.spanContext
            tags := spanD.startTags
            attributes := spanD.attributes
            duration := ef.time - spanD.start
            name := spanD.name }) := by
  have hread : rs.readScope ef.scope = some (spanD.attributes, some spanD) := by
    rw [ReaderState.readScope, href, if_neg hnz, hload]
  have hclean : cleanupSpan rs.scopes ef.scope.eventID = some (tdelete rs.scopes k) := by
    rw [href, cleanupSpan_step rs.scopes k _ hnz hload]
    show cleanupSpan _ spanD.parent = _
    rw [hpz, cleanupSpan_zero]
  simp only [orderedObserve, htf, hread, hclean]

/-- C5: A `FINISH_SPAN` that resolves to a started span emits a
record whose duration is exactly the finish time minus the start
event's time, whose tags are the tag set captured from the start
event's context, and whose name and span context are the ones recorded
at `START_SPAN`. -/
theorem finish_record_matches_start (rs rs1 : ReaderState) (es ef : ObsEvent)
    (ds1 : List (Nat × ReadEvent))
    (hts : es.type = .START_SPAN)
    (htf : ef.type = .FINISH_SPAN)
    (hob1 : orderedObserve rs es = (some rs1, ds1))
    (href : ef.scope.eventID = es.sequence)
    (hnz : es.sequence ≠ 0) :
    ∃ rs2 r, orderedObserve rs1 ef = (some rs2, deliverAll rs1.readers r)
      ∧ r.duration = ef.time - es.time
      ∧ r.tags = tagFromContext es.context
      ∧ r.name = es.string
      ∧ r.spanContext = es.scope.spanContext := by
  simp only [orderedObserve, hts] at hob1
  rcases hs : rs.readScope es.scope with - | ⟨rattrs, osp⟩
  · simp [hs] at hob1
  · simp only [hs] at hob1
    have hsc : ({ rs with scopes := tstore rs.scopes es.sequence (.span { name := es.string, start := es.time, startTags := tagFromContext es.context, spanContext := es.scope.spanContext, status := 0, parent := 0, attributes := rattrs }) } : ReaderState) = rs1 := by
      by_cases hpc : es.parent.eventID = 0 ∧ es.parent.hasTraceID = true
      · simp only [if_pos hpc, Prod.mk.injEq, Option.some.injEq] at hob1
        exact hob1.1
      · simp only [if_neg hpc] at hob1
        rcases hp : rs.readScope es.parent with - | ⟨pa, ps⟩
        · simp [hp] at hob1
        · simp only [hp, Prod.mk.injEq, Option.some.injEq] at hob1
          exact hob1.1
    subst hsc
    exact ⟨_, _,
      finish_on_fresh_span _ ef _ es.sequence htf href hnz
        (tload_tstore_self _ _ _) rfl,
      rfl, rfl, rfl, rfl⟩

/-- Witness for `finish_record_matches_start`: start at time 10,
finish at time 25, duration 15. -/
theorem finish_record_matches_start_witness :
    ∃ rs2 r,
      orderedObserve
          { scopes := [(4, .span { name := "w", start := 10, startTags := [{ key := "k", value := .vString "v" }], spanContext := { traceIDHigh := 1, traceIDLow := 2, spanID := 3 } })], readers := 1 }
          { type := .FINISH_SPAN, time := 25, scope := { eventID := 4 } }
        = (some rs2, deliverAll 1 r)
      ∧ r.duration = 25 - (10 : Int)
      ∧ r.tags = tagFromContext (some { tags := [{ key := "k", value := .vString "v" }] })
      ∧ r.name = "w"
      ∧ r.spanContext = { traceIDHigh := 1, traceIDLow := 2, spanID := 3 } :=
  finish_record_matches_start
    { readers := 1 }
    { scopes := [(4, .span { name := "w", start := 10, startTags := [{ key := "k", value := .vString "v" }], spanContext := { traceIDHigh := 1, traceIDLow := 2, spanID := 3 } })], readers := 1 }
    { type := .START_SPAN, time := 10, sequence := 4, string := "w", context := some { tags := [{ key := "k", value := .vString "v" }] }, scope := { eventID := 0, spanContext := { traceIDHigh := 1, traceIDLow := 2, spanID := 3 } } }
    { type := .FINISH_SPAN, time := 25, scope := { eventID := 4 } }
    [(0, { type := .START_SPAN, time := 10, sequence := 4, spanContext := { traceIDHigh := 1, traceIDLow := 2, spanID := 3 }, tags := [{ key := "k", value := .vString "v" }], name := "w" })]
    rfl rfl (by rfl) rfl (by decide)

/-- C9: `WithResources` emits exactly one event: a `NEW_SCOPE`
chained off the tracer's previous resource-scope identifier (0 for a
fresh tracer), carrying the given attributes, and returns a derived
tracer remembering the new event's identifier; `WithComponent` and
`WithService` delegate to it with a component/service key-value; no
span (`START_SPAN`) is created. -/
theorem withResources_chains_new_scope (t : Tracer) (st : ObserverState)
    (attrs : List KeyValue) :
    ∃ ev, (t.withResources st attrs).1.events = st.events ++ [ev]
      ∧ ev.type = .NEW_SCOPE
      ∧ ev.type ≠ .START_SPAN
      ∧ ev.scope.eventID = t.resources
      ∧ ev.attributes = attrs
      ∧ ev.sequence = st.nextID
      ∧ (t.withResources st attrs).2 = { resources := st.nextID }
      ∧ (∀ n, t.withComponent st n = t.withResources st [componentKV n])
      ∧ (∀ n, t.withService st n = t.withResources st [serviceKV n])
      ∧ Tracer.new.resources = 0 :=
  ⟨{ type := .NEW_SCOPE, sequence := st.nextID, scope := { eventID := t.resources },
     attributes := attrs },
    rfl, rfl, by simp, rfl, rfl, rfl, rfl, fun _ => rfl, fun _ => rfl, rfl⟩

/-- C7: `WithSpan` finishes the started span exactly once on every
exit path; when the body fails, an `error=true` attribute and a log
event carrying the error message are recorded (referencing the span's
own scope) before the finish, and the body's error is returned
unchanged. -/
theorem withSpan_finish_exactly_once (t : Tracer) (st : ObserverState)
    (rnd : Nat → Nat) (ctx : Context) (name : String)
    (body : Context → Option String) :
    ∃ st1 ctx2 sp, t.start st rnd ctx name {} = (st1, ctx2, sp)
      ∧ (t.withSpan st rnd ctx name body).2 = body ctx2
      ∧ (body ctx2 = none →
          ∃ fe, (t.withSpan st rnd ctx name body).1.events = st1.events ++ [fe]
            ∧ fe.type = .FINISH_SPAN ∧ fe.scope = sp.initial)
      ∧ (∀ m, body ctx2 = some m →
          ∃ me ae fe,
            (t.withSpan st rnd ctx name body).1.events
              = st1.events ++ [me, ae, fe]
            ∧ me.type = .MODIFY_ATTR ∧ me.scope = sp.initial
              ∧ me.attributeKV = some (errorKV true)
            ∧ ae.type = .ADD_EVENT ∧ ae.scope = sp.initial
              ∧ ae.string = "span error" ∧ ae.attributes = [messageKV m]
            ∧ fe.type = .FINISH_SPAN ∧ fe.scope = sp.initial)
      ∧ (((t.withSpan st rnd ctx name body).1.events.drop st.events.length).filter
            (fun e2 => e2.type == .FINISH_SPAN)).length = 1 := by
  rcases hstart : t.start st rnd ctx name {} with ⟨st1, ctx2, sp⟩
  have h1 : st1 = (t.start st rnd ctx name {}).1 := by rw [hstart]
  have hws : t.withSpan st rnd ctx name body
      = (match body ctx2 with
        | some m => (sp.finish (sp.event (sp.setAttribute st1 (errorKV true))
            ctx2 "span error" [messageKV m]), some m)
        | none => (sp.finish st1, none)) := by
    rw [Tracer.withSpan, hstart]
  refine ⟨st1, ctx2, sp, rfl, ?_, ?_, ?_, ?_⟩
  · rw [hws]
    rcases hb : body ctx2 with - | m <;> simp [hb]
  · intro hb
    rw [hws, hb]
    exact ⟨{ type := .FINISH_SPAN, scope := sp.initial, sequence := st1.nextID },
      rfl, rfl, rfl⟩
  · intro m hb
    rw [hws, hb]
    refine ⟨{ type := .MODIFY_ATTR, scope := sp.initial, attributeKV := some (errorKV true), sequence := st1.nextID },
      { type := .ADD_EVENT, scope := sp.initial, context := some ctx2, string := "span error", attributes := [messageKV m], sequence := st1.nextID + 1 },
      { type := .FINISH_SPAN, scope := sp.initial, sequence := st1.nextID + 2 },
      ?_, rfl, rfl, rfl, rfl, rfl, rfl, rfl, rfl, rfl⟩
    simp [Span.finish, Span.event, Span.setAttribute, ObserverState.record,
      List.append_assoc]
  · rw [hws]
    rcases hb : body ctx2 with - | m <;>
    · simp only [hb]
      rw [h1]
      simp [Span.finish, Span.event, Span.setAttribute, ObserverState.record,
        Tracer.start, ObserverState.newScope, List.append_assoc]

/-- C3 counterexample: Span B (trace `(1,2)`, span id 3, attribute
snapshot `[k=v]`) is the ambient current span and its node sits in the
reader's table; a span "C" is started with no explicit reference.  The
producer leaves the parent scope's event identifier at 0, so the
reconstructed `START_SPAN` record takes the remote-parent path: it
carries B's span context as parent but `ParentAttributes` stays nil —
not B's snapshot, contradicting the claim. -/
theorem start_local_parent_attrs_counterexample :
    (observeMany
        { scopes := [(5, ScopeNode.span { name := "B", spanContext := { traceIDHigh := 1, traceIDLow := 2, spanID := 3 }, attributes := [{ key := "k", value := .vString "v" }] })], readers := 1 }
        ((Tracer.new.start { nextID := 10 } (fun i => 100 + i)
            { currentSpanCtx := { traceIDHigh := 1, traceIDLow := 2, spanID := 3 } }
            "C" {}).1.events)).2
      = [(0, { type := .START_SPAN, sequence := 11, spanContext := { traceIDHigh := 1, traceIDLow := 2, spanID := 100 }, parent := { traceIDHigh := 1, traceIDLow := 2, spanID := 3 }, parentAttributes := none, name := "C" })]
    ∧ (none : Option TagMap) ≠ some [{ key := "k", value := .vString "v" }] :=
  ⟨rfl, by decide⟩

theorem observe_start_single (rs : ReaderState) (child parentSC : SpanContext)
    (k : EventID) (tme : Int) (seq2 : EventID) (ctx : Context) (name : String)
    (nsNode : ScopeNode) (hk : k ≠ 0) (hload : tload rs.scopes k = some nsNode) :
    ∃ rs2 r, orderedObserve rs
        { type := .START_SPAN, time := tme, sequence := seq2, scope := { eventID := k, spanContext := child }, context := some ctx, parent := { eventID := 0, spanContext := parentSC }, string := name }
      = (some rs2, deliverAll rs.readers r)
      ∧ r.parentAttributes = none
      ∧ (parentSC.hasTraceID = true → r.parent = parentSC) := by
  have hread : rs.readScope { eventID := k, spanContext := child }
      = some (nsNode.attrsOf, nsNode.spanOf) := by
    rw [ReaderState.readScope]
    simp only [if_neg hk, hload]
    cases nsNode <;> rfl
  simp only [orderedObserve, hread]
  by_cases hpt : parentSC.hasTraceID = true
  · simp only [ScopeID.hasTraceID, hpt, and_self, true_and, if_true]
    exact ⟨_, _, rfl, rfl, fun _ => rfl⟩
  · have hpf : parentSC.hasTraceID = false := by
      cases h : parentSC.hasTraceID
      · rfl
      · exact absurd h hpt
    have hreadp : rs.readScope { eventID := 0, spanContext := parentSC }
        = some ([], none) := rfl
    simp only [ScopeID.hasTraceID, hpf, Bool.false_eq_true, and_false, true_and,
      if_false, hreadp]
    exact ⟨_, _, rfl, rfl, fun h => h.elim⟩

theorem observe_start_pair (rs : ReaderState) (child parentSC : SpanContext)
    (resources : EventID) (seq : EventID) (tme : Int) (attrs : List KeyValue)
    (ctx : Context) (name : String)
    (hseq : seq ≠ 0)
    (hres : resources = 0 ∨ ∃ node, tload rs.scopes resources = some node) :
    ∃ rs2 r,
      observeMany rs
        [{ type := .NEW_SCOPE, scope := { eventID := resources, spanContext := child }, attributes := attrs, sequence := seq },
         { type := .START_SPAN, time := tme, sequence := seq + 1, scope := { eventID := seq, spanContext := child }, context := some ctx, parent := { eventID := 0, spanContext := parentSC }, string := name }]
        = (some rs2, deliverAll rs.readers r)
      ∧ r.parentAttributes = none
      ∧ (parentSC.hasTraceID = true → r.parent = parentSC) := by
  have step1 : ∃ nsNode, orderedObserve rs
      { type := .NEW_SCOPE, scope := { eventID := resources, spanContext := child }, attributes := attrs, sequence := seq }
      = (some { rs with scopes := tstore rs.scopes seq nsNode }, []) := by
    rcases hres with h0 | ⟨node, hnode⟩
    · refine ⟨.scope none resources (TagMap.apply [] (eventUpdate { type := .NEW_SCOPE, scope := { eventID := resources, spanContext := child }, attributes := attrs, sequence := seq })), ?_⟩
      simp only [orderedObserve]
      rw [if_pos (show ScopeID.eventID { eventID := resources, spanContext := child } = 0 from h0)]
      rfl
    · by_cases h0 : resources = 0
      · refine ⟨.scope none resources (TagMap.apply [] (eventUpdate { type := .NEW_SCOPE, scope := { eventID := resources, spanContext := child }, attributes := attrs, sequence := seq })), ?_⟩
        simp only [orderedObserve]
        rw [if_pos (show ScopeID.eventID { eventID := resources, spanContext := child } = 0 from h0)]
        rfl
      · refine ⟨.scope node.spanOf resources (node.attrsOf.apply (eventUpdate { type := .NEW_SCOPE, scope := { eventID := resources, spanContext := child }, attributes := attrs, sequence := seq })), ?_⟩
        simp only [orderedObserve]
        rw [if_neg (show ¬ ScopeID.eventID { eventID := resources, spanContext := child } = 0 from h0)]
        simp only [hnode]
        cases node <;> rfl
  obtain ⟨nsNode, hstep1⟩ := step1
  have hload : tload (tstore rs.scopes seq nsNode) seq = some nsNode :=
    tload_tstore_self _ _ _
  obtain ⟨rs2, r, hobs2, hpa, hpar⟩ :=
    observe_start_single { rs with scopes := tstore rs.scopes seq nsNode }
      child parentSC seq tme (seq + 1) ctx name nsNode hseq hload
  refine ⟨rs2, r, ?_, hpa, hpar⟩
  simp only [observeMany, hstep1, hobs2]
  simp

/-- C3 amended: Parent resolution in `Start` plus reconstruction:
with an explicit reference carrying a trace id the child inherits that
trace id and the record's parent is the reference, with no parent
attributes; with no reference and an ambient current span the child
inherits the ambient trace id and the record's parent is the ambient
span context — but again with NO parent attributes (the producer never
sets the parent scope's event identifier, so the reader always takes
the remote-parent path); with no parent at all the trace-id halves are
two independent random draws; the span id is always a random draw. -/
theorem start_parent_resolution_amended (t : Tracer) (st : ObserverState)
    (rnd : Nat → Nat) (ctx : Context) (name : String) (o : SpanOptions)
    (rs : ReaderState)
    (hseq : st.nextID ≠ 0)
    (hres : t.resources = 0 ∨ ∃ node, tload rs.scopes t.resources = some node) :
    ∃ st2 ctx2 sp, t.start st rnd ctx name o = (st2, ctx2, sp)
      ∧ sp.initial.spanContext.spanID = rnd 0
      ∧ (o.reference.hasTraceID = true →
            sp.initial.spanContext.traceIDHigh = o.reference.traceIDHigh
          ∧ sp.initial.spanContext.traceIDLow = o.reference.traceIDLow)
      ∧ (o.reference.hasTraceID = false → ctx.currentSpanCtx.hasTraceID = true →
            sp.initial.spanContext.traceIDHigh = ctx.currentSpanCtx.traceIDHigh
          ∧ sp.initial.spanContext.traceIDLow = ctx.currentSpanCtx.traceIDLow)
      ∧ (o.reference.hasTraceID = false → ctx.currentSpanCtx.hasTraceID = false →
            sp.initial.spanContext.traceIDHigh = rnd 1
          ∧ sp.initial.spanContext.traceIDLow = rnd 2)
      ∧ ∃ rs2 r, observeMany rs (st2.events.drop st.events.length)
            = (some rs2, deliverAll rs.readers r)
          ∧ r.parentAttributes = none
          ∧ ((o.reference.hasTraceID = true ∨ ctx.currentSpanCtx.hasTraceID = true) →
              r.parent
                = (if o.reference.hasTraceID = true then o.reference
                   else ctx.currentSpanCtx)) := by
  rcases hstart : t.start st rnd ctx name o with ⟨st2, ctx2, sp⟩
  have hst2 : st2 = (t.start st rnd ctx name o).1 := by rw [hstart]
  have hsp : sp = (t.start st rnd ctx name o).2.2 := by rw [hstart]
  refine ⟨st2, ctx2, sp, rfl, ?_, ?_, ?_, ?_, ?_⟩
  · rw [hsp]
    simp only [Tracer.start]
    split <;> split <;> rfl
  · intro href
    rw [hsp]
    simp [Tracer.start, ScopeID.hasTraceID, href]
  · intro href hctx
    rw [hsp]
    simp [Tracer.start, ScopeID.hasTraceID, href, hctx]
  · intro href hctx
    rw [hsp]
    simp [Tracer.start, ScopeID.hasTraceID, href, hctx]
  · have hdrop : st2.events.drop st.events.length
        = [{ type := .NEW_SCOPE, scope := { eventID := t.resources, spanContext := sp.initial.spanContext }, attributes := o.attributes, sequence := st.nextID },
           { type := .START_SPAN, time := o.startTime, sequence := st.nextID + 1, scope := { eventID := st.nextID, spanContext := sp.initial.spanContext }, context := some ctx, parent := { eventID := 0, spanContext := (if o.reference.hasTraceID = true then o.reference else ctx.currentSpanCtx) }, string := name }] := by
      rw [hst2, hsp]
      by_cases href : o.reference.hasTraceID = true <;>
        simp [Tracer.start, ObserverState.newScope, ObserverState.record,
          ScopeID.hasTraceID, href, List.append_assoc, List.drop_left]
    rw [hdrop]
    obtain ⟨rs2, r, hobs, hpa, hpar⟩ :=
      observe_start_pair rs sp.initial.spanContext
        (if o.reference.hasTraceID = true then o.reference else ctx.currentSpanCtx)
        t.resources st.nextID o.startTime o.attributes ctx name hseq hres
    refine ⟨rs2, r, hobs, hpa, ?_⟩
    intro hor
    apply hpar
    by_cases href : o.reference.hasTraceID = true
    · simp [href]
    · rcases hor with h | h
      · exact absurd h href
      · simpa [href] using h

/-- Witness for `start_parent_resolution_amended` at a concrete input:
fresh tracer, sequencer at 10, ambient span `(1,2,3)`, one reader. -/
theorem start_parent_resolution_amended_witness :
    (10 : Nat) ≠ 0 ∧
    ∃ st2 ctx2 sp,
      Tracer.new.start { nextID := 10 } (fun i => 100 + i)
          { currentSpanCtx := { traceIDHigh := 1, traceIDLow := 2, spanID := 3 } } "C" {}
        = (st2, ctx2, sp)
      ∧ sp.initial.spanContext.spanID = (fun i => 100 + i) 0
      ∧ (SpanContext.hasTraceID {} = true →
            sp.initial.spanContext.traceIDHigh = SpanContext.traceIDHigh {}
          ∧ sp.initial.spanContext.traceIDLow = SpanContext.traceIDLow {})
      ∧ (SpanContext.hasTraceID {} = false →
          SpanContext.hasTraceID { traceIDHigh := 1, traceIDLow := 2, spanID := 3 } = true →
            sp.initial.spanContext.traceIDHigh
              = SpanContext.traceIDHigh { traceIDHigh := 1, traceIDLow := 2, spanID := 3 }
          ∧ sp.initial.spanContext.traceIDLow
              = SpanContext.traceIDLow { traceIDHigh := 1, traceIDLow := 2, spanID := 3 })
      ∧ (SpanContext.hasTraceID {} = false →
          SpanContext.hasTraceID { traceIDHigh := 1, traceIDLow := 2, spanID := 3 } = false →
            sp.initial.spanContext.traceIDHigh = (fun i => 100 + i) 1
          ∧ sp.initial.spanContext.traceIDLow = (fun i => 100 + i) 2)
      ∧ ∃ rs2 r,
          observeMany { readers := 1 }
              (st2.events.drop (List.length (ObserverState.events { nextID := 10 })))
            = (some rs2, deliverAll (ReaderState.readers { readers := 1 }) r)
          ∧ r.parentAttributes = none
          ∧ ((SpanContext.hasTraceID {} = true
              ∨ SpanContext.hasTraceID { traceIDHigh := 1, traceIDLow := 2, spanID := 3 } = true) →
              r.parent = (if SpanContext.hasTraceID {} = true then {}
                else { traceIDHigh := 1, traceIDLow := 2, spanID := 3 })) :=
  ⟨by decide,
    start_parent_resolution_amended Tracer.new { nextID := 10 } (fun i => 100 + i)
      { currentSpanCtx := { traceIDHigh := 1, traceIDLow := 2, spanID := 3 } } "C" {}
      { readers := 1 } (by decide) (Or.inl rfl)⟩

end OTel
